import Mathlib

/-!
Verification of the Discord communication summarization pipeline.

Shallow embedding of the repository's core modules:
  * `storage.py`   — message cleanup (`_clean`), day partitioning (`_day_dir`),
    persistence (`append_message`);
  * `summarizer_io.py` — ticker extraction (`extract_tickers`), the aggregation
    engine (`analyze_messages`), the plain-text and markdown renderers, and
    `load_day_messages`;
  * `gemini_analyzer.py` — the AI-analysis adapter (`analyze_with_gemini`) and
    the enhanced text renderer (`generate_enhanced_summary_text`);
  * `notion_writer.py` — the section-document renderer (`_build_content_blocks`).

Python strings are modelled as Lean `String` (a wrapper around `List Char`,
one entry per Unicode scalar value, matching Python's `str`).  Machine-level
concerns (file handles, network, the GCS/Vertex/Notion clients) are external
collaborators: the functions below model the pure computation the repository
performs on the data that crosses those boundaries.
-/

namespace Tradesbot

/-! ## storage.py: character classes and `_clean` -/

/-- `EMOJI_RE = re.compile(r"[\U0001F300-\U0001FAFF]")` from `storage.py`:
a character is in the removed emoji range iff its code point lies in
`[0x1F300, 0x1FAFF]`. -/
def isEmojiChar (c : Char) : Bool :=
  0x1F300 ≤ c.val && c.val ≤ 0x1FAFF

/-- The whitespace class used by Python's `\s` (str patterns) and `str.strip()`:
ASCII whitespace, the C1 separators, and the Unicode space separators. -/
def isPySpace (c : Char) : Bool :=
  c == ' ' || c == '\t' || c == '\n' || c == '\r' ||
  c.val == 0x0b || c.val == 0x0c ||
  c.val == 0x1c || c.val == 0x1d || c.val == 0x1e || c.val == 0x1f ||
  c.val == 0x85 || c.val == 0xa0 || c.val == 0x1680 ||
  (0x2000 ≤ c.val && c.val ≤ 0x200a) ||
  c.val == 0x2028 || c.val == 0x2029 || c.val == 0x202f ||
  c.val == 0x205f || c.val == 0x3000

/-- `EMOJI_RE.sub("", s)`: drop every character in the emoji range. -/
def removeEmoji (l : List Char) : List Char :=
  l.filter (fun c => !isEmojiChar c)

/-- `s.replace("```", "")`: left-to-right removal of non-overlapping
triple-backtick occurrences. -/
def removeTriple : List Char → List Char
  | '`' :: '`' :: '`' :: rest => removeTriple rest
  | c :: rest => c :: removeTriple rest
  | [] => []

/-- `s.replace("`", "")`: every remaining backtick is removed. -/
def removeSingle (l : List Char) : List Char :=
  l.filter (fun c => !(c == '`'))

/-- Worker for `WS_RE.sub(" ", s)` (`WS_RE = re.compile(r"\s+")`): each maximal
run of whitespace is replaced by a single `' '`.  The flag records whether the
scanner is inside a whitespace run whose replacement was already emitted. -/
def collapseGo : Bool → List Char → List Char
  | _, [] => []
  | inRun, c :: cs =>
    if isPySpace c then
      if inRun then collapseGo true cs else ' ' :: collapseGo true cs
    else c :: collapseGo false cs

/-- `WS_RE.sub(" ", s)`. -/
def collapseWS (l : List Char) : List Char :=
  collapseGo false l

/-- `str.strip()`: drop leading and trailing whitespace. -/
def pyStrip (l : List Char) : List Char :=
  (((l.dropWhile isPySpace).reverse).dropWhile isPySpace).reverse

/-- `_clean` from `storage.py` on the character-list level:
emoji removal, fence removal, whitespace collapse, trim. -/
def cleanChars (l : List Char) : List Char :=
  pyStrip (collapseWS (removeSingle (removeTriple (removeEmoji l))))

/-- `_clean(s)` from `storage.py`. -/
def pyClean (s : String) : String :=
  ⟨cleanChars s.data⟩

example : pyClean "  hi   there " = "hi there" := by decide
example : pyClean " ``` a``b` \t c🌀 " = "ab c" := by decide
example : pyClean " \t \n " = "" := by decide

/-! ## summarizer_io.py: `TICKER_PATTERN` and `extract_tickers` -/

/-- `[A-Z]` in `TICKER_PATTERN`: ASCII uppercase. -/
def isUpperAZ (c : Char) : Bool :=
  'A' ≤ c && c ≤ 'Z'

/-- The regex word-character class `\w` deciding the `\b` boundary, modelled
over the ASCII range: letters, digits and underscore. -/
def isWordChar (c : Char) : Bool :=
  c.isAlphanum || c == '_'

/-- One anchored match attempt of `TICKER_PATTERN = r'\$([A-Z]{1,5})\b'` at the
head of the input.  The greedy repetition takes the whole uppercase run `u`;
`\b` then requires the next character to be a non-word character (or the end).
Backtracking to a shorter prefix of `u` can never succeed, because the
character following a proper prefix of `u` is an uppercase letter, which is a
word character — so the attempt succeeds exactly when `1 ≤ |u| ≤ 5` and the
run is followed by a boundary.  Returns the capture and the rest of the input
after the match. -/
def tickerAt : List Char → Option (List Char × List Char)
  | [] => none
  | c :: rest =>
    if c = '$' then
      let u := rest.takeWhile isUpperAZ
      if u.length = 0 || 5 < u.length then none
      else
        match rest.drop u.length with
        | [] => some (u, [])
        | c' :: cs => if isWordChar c' then none else some (u, c' :: cs)
    else none

/-- `re.findall` scanning: try a match at each position, left to right; on a
match, emit the capture and resume after the matched text.  The fuel is an
upper bound on the number of scanning steps (the input length suffices, since
every step consumes at least one character). -/
def findTickers : Nat → List Char → List (List Char)
  | 0, _ => []
  | _ + 1, [] => []
  | fuel + 1, c :: cs =>
    match tickerAt (c :: cs) with
    | some (cap, rest) => cap :: findTickers fuel rest
    | none => findTickers fuel cs

/-- `extract_tickers(text)` from `summarizer_io.py`:
`TICKER_PATTERN.findall(text)`. -/
def extract_tickers (s : String) : List String :=
  (findTickers s.data.length s.data).map String.mk

example : extract_tickers "Long $AAPL and $msft, watch $TOOLONGTICKER" = ["AAPL"] := by decide
example : extract_tickers "$A $B $A" = ["A", "B", "A"] := by decide
example : extract_tickers "$ABC123 $AB_ $$GME" = ["GME"] := by decide

/-! ## storage.py: records, `_day_dir`, `append_message` -/

/-- Python `str.split()` (no separator): split on whitespace runs, dropping
empty pieces. -/
def splitWS (l : List Char) : List (List Char) :=
  (l.foldr
    (fun c acc =>
      if isPySpace c then [] :: acc
      else
        match acc with
        | [] => [[c]]
        | w :: ws => (c :: w) :: ws)
    []).filter (fun w => !w.isEmpty)

example : (splitWS " see http://x.y  z ".data).map String.mk = ["see", "http://x.y", "z"] := by decide

/-- The message handed to `append_message` by the ingestion client
(`discord.Message`).  `created_at` is the message's UTC instant in seconds
since the epoch — the library supplies timezone-aware UTC datetimes, on which
both `astimezone(timezone.utc)` (used by `_day_dir`) and
`replace(tzinfo=timezone.utc)` (used for the `ts` field) are the identity. -/
structure DiscordMsg where
  created_at : Nat
  channel_id : Nat
  channel_name : Option String
  author_id : Nat
  author : String
  content : String
  attachment_urls : List String
deriving Repr, DecidableEq

/-- The record serialized to the partition file by `append_message`.
`ts` keeps the UTC instant whose ISO rendering the code writes. -/
structure StoredRecord where
  ts : Nat
  channel_id : String
  channel_name : Option String
  author_id : String
  author : String
  content : String
  urls : List String
deriving Repr, DecidableEq

/-- `_day_dir(ts_utc)` from `storage.py`: the partition is named by the UTC
calendar date of the timestamp, here the day index `ts / 86400`. -/
def day_dir (ts_utc : Nat) : Nat :=
  ts_utc / 86400

/-- `append_message(m)` from `storage.py`.  Returns `none` when the cleaned
content is empty (the message is suppressed), otherwise the partition day,
the partition file name `f"{m.channel.id}.jsonl"`, and the record written. -/
def append_message (m : DiscordMsg) : Option (Nat × String × StoredRecord) :=
  let content := pyClean m.content
  if content = "" then none
  else
    some (day_dir m.created_at, toString m.channel_id ++ ".jsonl",
      { ts := m.created_at
        channel_id := toString m.channel_id
        channel_name := m.channel_name
        author_id := toString m.author_id
        author := m.author
        content := content
        urls := m.attachment_urls ++
          ((splitWS m.content.data).filter
            (fun w => "http://".data.isPrefixOf w || "https://".data.isPrefixOf w)).map String.mk })

example : append_message ⟨90000, 7, some "gen", 1, "al", " 🌀` ", []⟩ = none := by decide

/-! ## summarizer_io.py: `analyze_messages`

Python dictionaries preserve insertion order, so counters (`defaultdict(int)`)
are modelled as association lists where a new key is appended at the end and an
existing key is bumped in place.  Python sets are used only through `len` and
membership, so they are modelled as duplicate-free lists in first-insertion
order. -/

/-- A loaded message dictionary, with the defaults the code supplies through
`msg.get(...)` already applied (`''` for content, `'unknown'` for channel and
author fields).  `ts` is `none` when the key is missing; the code also treats
a falsy (empty) string as absent. -/
structure Msg where
  content : String := ""
  channel_id : String := "unknown"
  channel_name : String := "unknown"
  author : String := "unknown"
  ts : Option String := none
deriving Repr, DecidableEq

/-- `counter[k] += 1` on a `defaultdict(int)`: bump an existing key in place,
or append the key with count 1. -/
def bump : List (String × Nat) → String → List (String × Nat)
  | [], k => [(k, 1)]
  | (k', n) :: rest, k =>
    if k' = k then (k', n + 1) :: rest else (k', n) :: bump rest k

/-- `set.add`: insert if absent (order of insertion kept). -/
def addElem (l : List String) (a : String) : List String :=
  if a ∈ l then l else l ++ [a]

/-- The per-channel accumulator created by the `channel_stats` defaultdict. -/
structure ChanStat where
  messages : Nat := 0
  authors : List String := []
  tickers : List (String × Nat) := []
deriving Repr, DecidableEq

/-- defaultdict access-and-update: apply `f` to the entry for `k`, creating the
default entry first when `k` is absent. -/
def updChan (l : List (String × ChanStat)) (k : String) (f : ChanStat → ChanStat) :
    List (String × ChanStat) :=
  match l with
  | [] => [(k, f {})]
  | (k', s) :: rest =>
    if k' = k then (k', f s) :: rest else (k', s) :: updChan rest k f

/-- The mutable accumulators of the `for msg in messages` loop of
`analyze_messages`. -/
structure AggState where
  ticker_counts : List (String × Nat) := []
  channel_stats : List (String × ChanStat) := []
  all_authors : List String := []
  timestamps : List String := []
deriving Repr, DecidableEq

/-- One iteration of the loop body of `analyze_messages`. -/
def stepMsg (st : AggState) (m : Msg) : AggState :=
  let channel_key := m.channel_name ++ " (" ++ m.channel_id ++ ")"
  let tickers := extract_tickers m.content
  { ticker_counts := tickers.foldl bump st.ticker_counts
    channel_stats := updChan st.channel_stats channel_key
      (fun cs =>
        { messages := cs.messages + 1
          authors := addElem cs.authors m.author
          tickers := tickers.foldl bump cs.tickers })
    all_authors := addElem st.all_authors m.author
    timestamps := st.timestamps ++
      (match m.ts with
       | some t => if t = "" then [] else [t]
       | none => []) }

/-- Stable insertion into a descending-by-count list: the element goes before
the first entry whose count is not larger.  Elements already in the list come
from later positions of the original list, so ties keep original order. -/
def insertDesc (p : String × Nat) : List (String × Nat) → List (String × Nat)
  | [] => [p]
  | q :: rest => if q.2 ≤ p.2 then p :: q :: rest else q :: insertDesc p rest

/-- `sorted(counter.items(), key=lambda x: x[1], reverse=True)`: stable
descending sort by count (Python's `sorted` with `reverse=True` keeps equal
elements in their original order; any stable descending sort computes it). -/
def sortByCountDesc (l : List (String × Nat)) : List (String × Nat) :=
  l.foldr insertDesc []

/-- Lexicographic comparison by code point, the order Python uses on `str`. -/
def lexLe : List Char → List Char → Bool
  | [], _ => true
  | _ :: _, [] => false
  | a :: as, b :: bs =>
    if a.val < b.val then true
    else if b.val < a.val then false
    else lexLe as bs

/-- Python `min` on two strings (the first argument wins ties). -/
def strMin (a b : String) : String :=
  if lexLe a.data b.data then a else b

/-- Python `max` on two strings (the first argument wins ties). -/
def strMax (a b : String) : String :=
  if lexLe b.data a.data then a else b

/-- The per-channel summary dict built by `analyze_messages`. -/
structure ChanSummary where
  messages : Nat
  unique_authors : Nat
  top_tickers : List (String × Nat)
deriving Repr, DecidableEq

/-- The aggregation result dictionary of `analyze_messages`. -/
structure Analysis where
  total_messages : Nat
  channels : List (String × ChanSummary)
  top_tickers : List (String × Nat)
  unique_authors : Nat
  date_range : Option (String × String)
deriving Repr, DecidableEq

/-- `analyze_messages(messages)` from `summarizer_io.py`. -/
def analyze_messages (messages : List Msg) : Analysis :=
  if messages = [] then
    { total_messages := 0
      channels := []
      top_tickers := []
      unique_authors := 0
      date_range := none }
  else
    let st := messages.foldl stepMsg {}
    { total_messages := messages.length
      channels := st.channel_stats.map
        (fun p => (p.1,
          { messages := p.2.messages
            unique_authors := p.2.authors.length
            top_tickers := (sortByCountDesc p.2.tickers).take 10 }))
      top_tickers := sortByCountDesc st.ticker_counts
      unique_authors := st.all_authors.length
      date_range :=
        match st.timestamps with
        | [] => none
        | t :: ts => some (ts.foldl strMin t, ts.foldl strMax t) }

/-- `json.dumps` of the aggregation result: a structured serialization; the
C1 determinism claim is stated over this byte rendering as well as the value. -/
def serializePairs (l : List (String × Nat)) : String :=
  "\x7b" ++ String.intercalate ", "
    (l.map (fun p => "\"" ++ p.1 ++ "\": " ++ toString p.2)) ++ "\x7d"

/-- Serialize one channel summary. -/
def serializeChan (c : ChanSummary) : String :=
  "\x7b\"messages\": " ++ toString c.messages ++
  ", \"unique_authors\": " ++ toString c.unique_authors ++
  ", \"top_tickers\": " ++ serializePairs c.top_tickers ++ "\x7d"

/-- Serialize the whole aggregation result. -/
def serializeAnalysis (a : Analysis) : String :=
  "\x7b\"total_messages\": " ++ toString a.total_messages ++
  ", \"channels\": \x7b" ++
    String.intercalate ", "
      (a.channels.map (fun p => "\"" ++ p.1 ++ "\": " ++ serializeChan p.2)) ++
  "\x7d, \"top_tickers\": " ++ serializePairs a.top_tickers ++
  ", \"unique_authors\": " ++ toString a.unique_authors ++
  ", \"date_range\": " ++
    (match a.date_range with
     | none => "null"
     | some r => "\x7b\"start\": \"" ++ r.1 ++ "\", \"end\": \"" ++ r.2 ++ "\"\x7d") ++
  "\x7d"

example :
    analyze_messages [{ content := "$GME up", author := "a", ts := some "t1" },
                      { content := "$GME $AMC", author := "b", ts := some "t0" }] =
    { total_messages := 2
      channels := [("unknown (unknown)",
        { messages := 2, unique_authors := 2,
          top_tickers := [("GME", 2), ("AMC", 1)] })]
      top_tickers := [("GME", 2), ("AMC", 1)]
      unique_authors := 2
      date_range := some ("t0", "t1") } := by decide

/-! ## gemini_analyzer.py: AI result and `analyze_with_gemini`

The Vertex AI client, the network and `json.loads` on the oracle's reply are
external; the whole `try` block of `analyze_with_gemini` is modelled by an
`Except` value: `.ok a` when initialization, generation and JSON parsing all
succeed with parsed result `a`, `.error e` when any of them raises `e`. -/

/-- One entry of the `ticker_analysis` mapping of the parsed oracle reply,
with the defaults the renderers supply through `.get(...)`. -/
structure TickerView where
  sentiment : String := "unknown"
  conviction : String := "unknown"
  key_points : List String := []
  risks : List String := []
deriving Repr, DecidableEq

/-- The AI analysis dictionary.  `error` is `some e` when the fallback path
added the `"error"` key, `none` otherwise. -/
structure AIResult where
  executive_summary : String := ""
  ticker_analysis : List (String × TickerView) := []
  key_themes : List String := []
  notable_insights : List String := []
  watchlist : List String := []
  error : Option String := none
deriving Repr, DecidableEq

/-- `analyze_with_gemini(messages, basic_stats)` from `gemini_analyzer.py`:
on success the parsed analysis is returned unchanged; on any exception the
fallback dictionary is built from `basic_stats` alone. -/
def analyze_with_gemini (oracle : Except String AIResult) (basic_stats : Analysis) :
    AIResult :=
  match oracle with
  | .ok analysis => analysis
  | .error e =>
    { executive_summary := "AI analysis unavailable - see basic statistics"
      ticker_analysis := []
      key_themes := []
      notable_insights := []
      watchlist := (basic_stats.top_tickers.map Prod.fst).take 5
      error := some e }

/-! ## Rendering helpers (Python string formatting) -/

/-- `"=" * n`, `"-" * n`. -/
def repChar (c : Char) (n : Nat) : String :=
  ⟨List.replicate n c⟩

/-- Digit grouping on a reversed digit list: a comma after every third digit. -/
def commaGroup : List Char → List Char
  | d1 :: d2 :: d3 :: d4 :: rest => d1 :: d2 :: d3 :: ',' :: commaGroup (d4 :: rest)
  | l => l

/-- Python `f"{n:,}"`: decimal digits grouped in threes by commas. -/
def fmtComma (n : Nat) : String :=
  ⟨(commaGroup (toString n).data.reverse).reverse⟩

example : fmtComma 1234567 = "1,234,567" := by decide
example : fmtComma 42 = "42" := by decide

/-- Python `f"{s:>w}"` (numbers right-align by default). -/
def padLeft (w : Nat) (s : String) : String :=
  repChar ' ' (w - s.length) ++ s

/-- Python `f"{s:w}"` on strings (left-aligned). -/
def padRight (w : Nat) (s : String) : String :=
  s ++ repChar ' ' (w - s.length)

/-- Python `str.upper()`, over the ASCII range used by the data model. -/
def asciiUpper (s : String) : String :=
  ⟨s.data.map Char.toUpper⟩

/-- `dict.get(k, 0)` on a counter. -/
def lookupNat : List (String × Nat) → String → Nat
  | [], _ => 0
  | (k', n) :: rest, k => if k' = k then n else lookupNat rest k

/-! ## summarizer_io.py: `generate_summary_text`, `generate_markdown_summary` -/

/-- `generate_summary_text(analysis, date)` from `summarizer_io.py`. -/
def generate_summary_text (analysis : Analysis) (date : String) : String :=
  let lines :=
    [repChar '=' 60, "DISCORD TRADING SUMMARY - " ++ date, repChar '=' 60, "",
     "Total Messages: " ++ fmtComma analysis.total_messages,
     "Unique Authors: " ++ toString analysis.unique_authors,
     "Channels: " ++ toString analysis.channels.length]
    ++ (match analysis.date_range with
        | some r => ["Time Range: " ++ r.1 ++ " to " ++ r.2]
        | none => [])
    ++ [""]
    ++ (if analysis.top_tickers.isEmpty then [] else
         ["TOP MENTIONED TICKERS:", repChar '-' 60]
         ++ (analysis.top_tickers.take 10).enum.map (fun p =>
              "  " ++ padLeft 2 (toString (p.1 + 1)) ++ ". $" ++ padRight 6 p.2.1 ++
              " - " ++ padLeft 3 (toString p.2.2) ++ " mentions")
         ++ [""])
    ++ (if analysis.channels.isEmpty then [] else
         ["CHANNEL BREAKDOWN:", repChar '-' 60]
         ++ analysis.channels.flatMap (fun p =>
              ["\nCHANNEL: " ++ p.1,
               "   Messages: " ++ fmtComma p.2.messages,
               "   Authors: " ++ toString p.2.unique_authors]
              ++ (if p.2.top_tickers.isEmpty then [] else
                   ["   Top Tickers: " ++ String.intercalate ", "
                     ((p.2.top_tickers.take 3).map
                       (fun q => "$" ++ q.1 ++ " (" ++ toString q.2 ++ ")"))])))
    ++ ["", repChar '=' 60]
  String.intercalate "\n" lines

/-- `generate_markdown_summary(analysis, date)` from `summarizer_io.py`.
The footer embeds `datetime.utcnow().isoformat()`, the wall-clock instant of
the call; it enters the model as the explicit argument `now`. -/
def generate_markdown_summary (analysis : Analysis) (date : String) (now : String) :
    String :=
  let md :=
    ["# Discord Trading Summary - " ++ date ++ "\n",
     "## Overview\n",
     "- **Total Messages**: " ++ fmtComma analysis.total_messages,
     "- **Unique Authors**: " ++ toString analysis.unique_authors,
     "- **Channels Monitored**: " ++ toString analysis.channels.length]
    ++ (match analysis.date_range with
        | some r => ["- **Time Range**: " ++ r.1 ++ " to " ++ r.2]
        | none => [])
    ++ [""]
    ++ (if analysis.top_tickers.isEmpty then [] else
         ["## Top Mentioned Tickers\n"]
         ++ (analysis.top_tickers.take 10).enum.map (fun p =>
              toString (p.1 + 1) ++ ". **$" ++ p.2.1 ++ "** - " ++ toString p.2.2 ++ " mentions")
         ++ [""])
    ++ (if analysis.channels.isEmpty then [] else
         ["## Channel Activity\n"]
         ++ analysis.channels.flatMap (fun p =>
              ["### " ++ p.1 ++ "\n",
               "- **Messages**: " ++ fmtComma p.2.messages,
               "- **Unique Authors**: " ++ toString p.2.unique_authors]
              ++ (if p.2.top_tickers.isEmpty then [] else
                   "- **Top Tickers**:" ::
                   (p.2.top_tickers.take 5).map
                     (fun q => "  - $" ++ q.1 ++ ": " ++ toString q.2 ++ " mentions"))
              ++ [""]))
    ++ ["---", "*Generated at " ++ now ++ "Z*"]
  String.intercalate "\n" md

/-! ## gemini_analyzer.py: `generate_enhanced_summary_text`

The source file carries its decorative glyphs in a mojibake form; the string
constants below reproduce the file's exact code points. -/

/-- The key-point line marker `"    âœ“ "` of the enhanced text renderer. -/
def kpMark : String := "    âœ“ "

/-- The risk line marker `"    âš ï¸  "` of the enhanced text renderer. -/
def riskMark : String := "    âš ï¸  "

/-- The bullet marker `"  â€¢ "` of the enhanced text renderer. -/
def bulletMark : String := "  â€¢ "

/-- The per-ticker chunk of the `TICKER ANALYSIS` section of
`generate_enhanced_summary_text` (the body of its
`for ticker, analysis in ...` loop): header line, at most 2 key-point lines,
at most 2 risk lines. -/
def tickerDetailLines (basic_stats : Analysis) (p : String × TickerView) :
    List String :=
  ["\n  $" ++ p.1 ++ " - " ++ toString (lookupNat basic_stats.top_tickers p.1) ++
   " mentions | " ++ asciiUpper p.2.sentiment ++ " | Conviction: " ++
   asciiUpper p.2.conviction]
  ++ (if p.2.key_points.isEmpty then [] else
       (p.2.key_points.take 2).map (fun q => kpMark ++ q))
  ++ (if p.2.risks.isEmpty then [] else
       (p.2.risks.take 2).map (fun r => riskMark ++ r))

/-- `generate_enhanced_summary_text(basic_stats, ai_analysis, date)` from
`gemini_analyzer.py`. -/
def generate_enhanced_summary_text (basic_stats : Analysis) (ai : AIResult)
    (date : String) : String :=
  let lines :=
    [repChar '=' 70, "DISCORD TRADING SUMMARY - " ++ date, repChar '=' 70, ""]
    ++ (if ai.executive_summary = "" then [] else
         ["ğŸ¯ EXECUTIVE SUMMARY", repChar '-' 70,
          ai.executive_summary, ""])
    ++ ["ğŸ“Š OVERVIEW", repChar '-' 70,
        "Total Messages: " ++ fmtComma basic_stats.total_messages,
        "Unique Authors: " ++ toString basic_stats.unique_authors,
        "Channels: " ++ toString basic_stats.channels.length]
    ++ (match basic_stats.date_range with
        | some r => ["Time Range: " ++ r.1 ++ " to " ++ r.2]
        | none => [])
    ++ [""]
    ++ (if ai.watchlist.isEmpty then [] else
         ["â­ TOP WATCHLIST", repChar '-' 70]
         ++ (ai.watchlist.take 5).map (fun t => bulletMark ++ "$" ++ t)
         ++ [""])
    ++ (if ai.ticker_analysis.isEmpty then [] else
         ["ğŸ’¹ TICKER ANALYSIS", repChar '-' 70]
         ++ (ai.ticker_analysis.take 5).flatMap (tickerDetailLines basic_stats)
         ++ [""])
    ++ (if ai.key_themes.isEmpty then [] else
         ["ğŸ” KEY THEMES", repChar '-' 70]
         ++ ai.key_themes.map (fun t => bulletMark ++ t)
         ++ [""])
    ++ (if ai.notable_insights.isEmpty then [] else
         ["ğŸ’¡ NOTABLE INSIGHTS", repChar '-' 70]
         ++ ai.notable_insights.map (fun t => bulletMark ++ t)
         ++ [""])
    ++ (if basic_stats.channels.isEmpty then [] else
         ["ğŸ“± CHANNEL BREAKDOWN", repChar '-' 70]
         ++ basic_stats.channels.flatMap (fun p =>
              ["\n  " ++ p.1,
               "    Messages: " ++ fmtComma p.2.messages ++ " | Authors: " ++
                 toString p.2.unique_authors]
              ++ (if p.2.top_tickers.isEmpty then [] else
                   ["    Top Tickers: " ++ String.intercalate ", "
                     ((p.2.top_tickers.take 3).map
                       (fun q => "$" ++ q.1 ++ " (" ++ toString q.2 ++ ")"))])))
    ++ ["", repChar '=' 70]
  String.intercalate "\n" lines

/-! ## notion_writer.py: `_build_content_blocks` (section document) -/

/-- A Notion content block, keeping the fields the builder sets: the block
type, its text, and the bold annotation on section-label paragraphs. -/
inductive Block where
  | heading2 : String → Block
  | heading3 : String → Block
  | paragraph : String → Bool → Block
  | bullet : String → Block
  | divider : Block
deriving Repr, DecidableEq

/-- The per-ticker chunk of the `Ticker Analysis` section of
`_build_content_blocks` (the body of its `for ticker, analysis in ...` loop):
a ticker heading, a stats paragraph, at most 3 key-point bullets, at most 3
risk bullets. -/
def tickerDetailBlocks (basic_stats : Analysis) (p : String × TickerView) :
    List Block :=
  [Block.heading3 ("$" ++ p.1),
   Block.paragraph
     (toString (lookupNat basic_stats.top_tickers p.1) ++ " mentions | Sentiment: " ++
      asciiUpper p.2.sentiment ++ " | Conviction: " ++ asciiUpper p.2.conviction) false]
  ++ (if p.2.key_points.isEmpty then [] else
       Block.paragraph "Key Points:" true :: (p.2.key_points.take 3).map Block.bullet)
  ++ (if p.2.risks.isEmpty then [] else
       Block.paragraph "Risks:" true :: (p.2.risks.take 3).map Block.bullet)

/-- `_build_content_blocks(basic_stats, ai_analysis, date)` from
`notion_writer.py`.  `date` is accepted and unused, as in the source. -/
def build_content_blocks (basic_stats : Analysis) (ai : AIResult) (date : String) :
    List Block :=
  let _ := date
  (if ai.executive_summary = "" then [] else
    [Block.heading2 "Executive Summary",
     Block.paragraph ai.executive_summary false,
     Block.divider])
  ++ [Block.heading2 "Overview"]
  ++ (["Total Messages: " ++ fmtComma basic_stats.total_messages,
       "Unique Authors: " ++ toString basic_stats.unique_authors,
       "Channels: " ++ toString basic_stats.channels.length]
      ++ (match basic_stats.date_range with
          | some r => ["Time Range: " ++ r.1 ++ " to " ++ r.2]
          | none => [])).map Block.bullet
  ++ (if ai.watchlist.isEmpty then [] else
       Block.heading2 "Top Watchlist" ::
       (ai.watchlist.take 5).map (fun t => Block.bullet ("$" ++ t)))
  ++ (if ai.ticker_analysis.isEmpty then [] else
       Block.heading2 "Ticker Analysis" ::
       (ai.ticker_analysis.take 5).flatMap (tickerDetailBlocks basic_stats))
  ++ (if ai.key_themes.isEmpty then [] else
       Block.heading2 "Key Themes" :: ai.key_themes.map Block.bullet)
  ++ (if ai.notable_insights.isEmpty then [] else
       Block.heading2 "Notable Insights" :: ai.notable_insights.map Block.bullet)
  ++ (if basic_stats.channels.isEmpty then [] else
       Block.heading2 "Channel Breakdown" ::
       basic_stats.channels.flatMap (fun p =>
         Block.heading3 p.1 ::
         (["Messages: " ++ fmtComma p.2.messages,
           "Unique Authors: " ++ toString p.2.unique_authors]
          ++ (if p.2.top_tickers.isEmpty then [] else
               ["Top Tickers: " ++ String.intercalate ", "
                 ((p.2.top_tickers.take 3).map
                   (fun q => "$" ++ q.1 ++ " (" ++ toString q.2 ++ ")"))])).map Block.bullet))

/-! ## summarizer_io.py: `load_day_messages` -/

/-- Python `s.split('\n')`: split at every newline, keeping empty pieces. -/
def splitLinesChar (l : List Char) : List (List Char) :=
  l.foldr
    (fun c acc =>
      if c = '\n' then [] :: acc
      else
        match acc with
        | [] => [[c]]
        | w :: ws => (c :: w) :: ws)
    [[]]

/-- `content.strip().split('\n')` as used by `load_day_messages`. -/
def blobLines (content : String) : List String :=
  (splitLinesChar (pyStrip content.data)).map String.mk

example : blobLines "  a\nbad\n\nb  " = ["a", "bad", "", "b"] := by decide

/-- `load_day_messages(bucket_name, date)` from `summarizer_io.py`, after the
GCS listing and download: `blobs` is the downloaded text of each JSONL blob of
the date's partition, and `parse` is `json.loads`, returning `none` exactly
when the library raises `JSONDecodeError` on a line.  Failed lines are logged
and skipped; the loop never raises. -/
def load_day_messages {α : Type} (parse : String → Option α) (blobs : List String) :
    List α :=
  blobs.foldl
    (fun messages content =>
      (blobLines content).foldl
        (fun messages line =>
          if line = "" then messages
          else
            match parse line with
            | some m => messages ++ [m]
            | none => messages)
        messages)
    []

/-- The specified reading of the loader: over all lines of all partition
blobs, keep exactly the parses of the non-empty lines accepted by the JSON
parser, in file and line order. -/
def loadJoined {α : Type} (parse : String → Option α) (blobs : List String) :
    List α :=
  (blobs.flatMap blobLines).filterMap
    (fun line => if line = "" then none else parse line)

/-! ## Observables used by the claim statements -/

/-- No two adjacent whitespace characters (all whitespace runs have length 1). -/
def noRun : List Char → Bool
  | c :: c' :: rest => !(isPySpace c && isPySpace c') && noRun (c' :: rest)
  | _ => true

/-- Neither end of the string is whitespace. -/
def trimmedEnds (l : List Char) : Bool :=
  (match l.head? with
   | none => true
   | some c => !isPySpace c) &&
  (match l.getLast? with
   | none => true
   | some c => !isPySpace c)

/-- Total count over a ticker counter. -/
def sumCounts (l : List (String × Nat)) : Nat :=
  (l.map Prod.snd).sum

/-- Is this a bulleted-list block? -/
def isBulletBlock : Block → Bool
  | Block.bullet _ => true
  | _ => false

/-- Is this a ticker heading (`heading_3`) block? -/
def isHeading3Block : Block → Bool
  | Block.heading3 _ => true
  | _ => false

/-- Number of key-point lines (lines carrying the key-point marker) in a piece
of the enhanced text rendering. -/
def countKpLines (lines : List String) : Nat :=
  lines.countP (fun s => kpMark.data.isPrefixOf s.data)

/-- Number of risk lines (lines carrying the risk marker) in a piece of the
enhanced text rendering. -/
def countRiskLines (lines : List String) : Nat :=
  lines.countP (fun s => riskMark.data.isPrefixOf s.data)

/-! ## Lemmas: the loader -/

/-- The inner line loop of `load_day_messages` appends the kept parses of
`lines` to the accumulator. -/
theorem loadLines_foldl {α : Type} (parse : String → Option α) :
    ∀ (lines : List String) (acc : List α),
      lines.foldl
        (fun messages line =>
          if line = "" then messages
          else
            match parse line with
            | some m => messages ++ [m]
            | none => messages)
        acc
      = acc ++ lines.filterMap (fun line => if line = "" then none else parse line) := by
  intro lines
  induction lines with
  | nil => simp
  | cons l rest ih =>
    intro acc
    by_cases hl : l = ""
    · simp [hl, ih]
    · cases hp : parse l <;> simp [hl, hp, ih]

/-- The blob loop of `load_day_messages` concatenates per-blob results. -/
theorem load_day_messages_eq_loadJoined {α : Type} (parse : String → Option α)
    (blobs : List String) :
    load_day_messages parse blobs = loadJoined parse blobs := by
  suffices h : ∀ (bs : List String) (acc : List α),
      bs.foldl
        (fun messages content =>
          (blobLines content).foldl
            (fun messages line =>
              if line = "" then messages
              else
                match parse line with
                | some m => messages ++ [m]
                | none => messages)
            messages)
        acc
      = acc ++ (bs.flatMap blobLines).filterMap
          (fun line => if line = "" then none else parse line) by
    simpa [load_day_messages, loadJoined] using h blobs []
  intro bs
  induction bs with
  | nil => simp
  | cons b rest ih =>
    intro acc
    rw [List.foldl_cons, loadLines_foldl, ih, List.flatMap_cons,
      List.filterMap_append, List.append_assoc]

/-! ## Lemmas: ticker extraction -/

/-- A successful anchored match captures between 1 and 5 uppercase letters. -/
theorem tickerAt_shape : ∀ {l cap rest}, tickerAt l = some (cap, rest) →
    1 ≤ cap.length ∧ cap.length ≤ 5 ∧ cap.all isUpperAZ = true := by
  intro l cap rest h
  match l with
  | [] => simp [tickerAt] at h
  | c :: cs =>
    simp only [tickerAt] at h
    split at h
    · split at h
      · exact absurd h (by simp)
      · rename_i hguard
        simp only [Bool.or_eq_true, decide_eq_true_iff, not_or] at hguard
        have hlen : ¬(cs.takeWhile isUpperAZ).length = 0 ∧
            ¬5 < (cs.takeWhile isUpperAZ).length := hguard
        have hall : (cs.takeWhile isUpperAZ).all isUpperAZ = true := by
          rw [List.all_eq_true]
          intro x hx
          exact List.mem_takeWhile_imp hx
        split at h
        · simp only [Option.some.injEq, Prod.mk.injEq] at h
          obtain ⟨rfl, -⟩ := h
          exact ⟨by omega, by omega, hall⟩
        · split at h
          · exact absurd h (by simp)
          · simp only [Option.some.injEq, Prod.mk.injEq] at h
            obtain ⟨rfl, -⟩ := h
            exact ⟨by omega, by omega, hall⟩
    · exact absurd h (by simp)

/-- Every capture emitted by the findall scan is a 1-to-5-letter uppercase
run. -/
theorem mem_findTickers : ∀ (fuel : Nat) (l t : List Char),
    t ∈ findTickers fuel l →
    1 ≤ t.length ∧ t.length ≤ 5 ∧ t.all isUpperAZ = true := by
  intro fuel
  induction fuel with
  | zero => intro l t ht; simp [findTickers] at ht
  | succ fuel ih =>
    intro l t ht
    match l with
    | [] => simp [findTickers] at ht
    | c :: cs =>
      rw [findTickers] at ht
      rcases hta : tickerAt (c :: cs) with - | ⟨cap, rest⟩ <;> rw [hta] at ht
      · exact ih cs t ht
      · simp only [List.mem_cons] at ht
        rcases ht with rfl | ht
        · exact tickerAt_shape hta
        · exact ih rest t ht

/-! ## Lemmas: rendering truncation counts -/

/-- Counting over a map whose images all satisfy the predicate. -/
theorem countP_map_true {α β : Type} (f : α → β) (pr : β → Bool)
    (h : ∀ a, pr (f a) = true) : ∀ l : List α, (l.map f).countP pr = l.length := by
  intro l
  induction l with
  | nil => simp
  | cons a rest ih => simp [List.countP_cons, h, ih]

/-- Counting over a map whose images all falsify the predicate. -/
theorem countP_map_false {α β : Type} (f : α → β) (pr : β → Bool)
    (h : ∀ a, pr (f a) = false) : ∀ l : List α, (l.map f).countP pr = 0 := by
  intro l
  induction l with
  | nil => simp
  | cons a rest ih => simp [List.countP_cons, h, ih]

/-- A list is a prefix of itself followed by anything. -/
theorem isPrefixOf_self_append : ∀ (l r : List Char), l.isPrefixOf (l ++ r) = true := by
  intro l r
  induction l with
  | nil => simp [List.isPrefixOf]
  | cons a as ih => simp [List.isPrefixOf, ih]

/-- The key-point marker heads every key-point line. -/
theorem kpMark_prefix (q : String) :
    kpMark.data.isPrefixOf ((kpMark ++ q).data) = true := by
  rw [String.data_append]
  exact isPrefixOf_self_append _ _

/-- The risk marker heads every risk line. -/
theorem riskMark_prefix (q : String) :
    riskMark.data.isPrefixOf ((riskMark ++ q).data) = true := by
  rw [String.data_append]
  exact isPrefixOf_self_append _ _

/-- A risk line does not carry the key-point marker (the two markers diverge
at their fifth character). -/
theorem kpMark_not_prefix_risk (q : String) :
    kpMark.data.isPrefixOf ((riskMark ++ q).data) = false := by
  rw [String.data_append]
  rfl

/-- A key-point line does not carry the risk marker. -/
theorem riskMark_not_prefix_kp (q : String) :
    riskMark.data.isPrefixOf ((kpMark ++ q).data) = false := by
  rw [String.data_append]
  rfl

/-- The per-ticker header line of the enhanced text rendering carries neither
marker (it starts with a newline, the markers with a space). -/
theorem marks_not_prefix_head (s : String) :
    kpMark.data.isPrefixOf (("\n  $" ++ s).data) = false
    ∧ riskMark.data.isPrefixOf (("\n  $" ++ s).data) = false := by
  rw [String.data_append]
  exact ⟨rfl, rfl⟩

/-- A truncated mapped run all of whose images satisfy the predicate counts
to the truncated length. -/
theorem countP_map_take_true {α β : Type} (f : α → β) (pr : β → Bool)
    (h : ∀ a, pr (f a) = true) (n : Nat) (l : List α) :
    ((l.take n).map f).countP pr = min n l.length := by
  have he : ((l.take n).map f).countP pr = ((l.take n).map f).length := by
    rw [List.countP_eq_length]
    intro a ha
    obtain ⟨q, -, rfl⟩ := List.mem_map.mp ha
    exact h q
  rw [he, List.length_map, List.length_take]

/-- A truncated mapped run none of whose images satisfy the predicate counts
to zero. -/
theorem countP_map_take_false {α β : Type} (f : α → β) (pr : β → Bool)
    (h : ∀ a, pr (f a) = false) (n : Nat) (l : List α) :
    ((l.take n).map f).countP pr = 0 := by
  rw [List.countP_eq_zero]
  intro a ha
  obtain ⟨q, -, rfl⟩ := List.mem_map.mp ha
  simp [h q]

/-- Each per-ticker chunk of the section document contains exactly one ticker
heading. -/
theorem tickerDetailBlocks_heading3_count (stats : Analysis) (p : String × TickerView) :
    (tickerDetailBlocks stats p).countP isHeading3Block = 1 := by
  unfold tickerDetailBlocks
  rw [List.countP_append, List.countP_append]
  have hB : (if p.2.key_points.isEmpty then []
      else Block.paragraph "Key Points:" true ::
        (p.2.key_points.take 3).map Block.bullet).countP isHeading3Block = 0 := by
    split
    · rfl
    · rw [List.countP_cons,
        countP_map_take_false Block.bullet isHeading3Block (fun _ => rfl)]
      rfl
  have hC : (if p.2.risks.isEmpty then []
      else Block.paragraph "Risks:" true ::
        (p.2.risks.take 3).map Block.bullet).countP isHeading3Block = 0 := by
    split
    · rfl
    · rw [List.countP_cons,
        countP_map_take_false Block.bullet isHeading3Block (fun _ => rfl)]
      rfl
  rw [hB, hC]
  rfl

/-- Per-ticker bullet count in the section document: 3-truncated key points
plus 3-truncated risks. -/
theorem tickerDetailBlocks_bullet_count (stats : Analysis) (p : String × TickerView) :
    (tickerDetailBlocks stats p).countP isBulletBlock
      = min 3 p.2.key_points.length + min 3 p.2.risks.length := by
  unfold tickerDetailBlocks
  rw [List.countP_append, List.countP_append]
  have hB : (if p.2.key_points.isEmpty then []
      else Block.paragraph "Key Points:" true ::
        (p.2.key_points.take 3).map Block.bullet).countP isBulletBlock
      = min 3 p.2.key_points.length := by
    rcases hk : p.2.key_points with - | ⟨k0, ks⟩
    · rfl
    · rw [if_neg (by simp), List.countP_cons,
        countP_map_take_true Block.bullet isBulletBlock (fun _ => rfl)]
      rfl
  have hC : (if p.2.risks.isEmpty then []
      else Block.paragraph "Risks:" true ::
        (p.2.risks.take 3).map Block.bullet).countP isBulletBlock
      = min 3 p.2.risks.length := by
    rcases hr : p.2.risks with - | ⟨r0, rs⟩
    · rfl
    · rw [if_neg (by simp), List.countP_cons,
        countP_map_take_true Block.bullet isBulletBlock (fun _ => rfl)]
      rfl
  rw [hB, hC]
  simp [List.countP_cons, isBulletBlock]

/-- Per-ticker key-point and risk line counts in the enhanced text rendering:
2-truncated key points and 2-truncated risks. -/
theorem tickerDetailLines_counts (stats : Analysis) (p : String × TickerView) :
    countKpLines (tickerDetailLines stats p) = min 2 p.2.key_points.length
    ∧ countRiskLines (tickerDetailLines stats p) = min 2 p.2.risks.length := by
  unfold countKpLines countRiskLines tickerDetailLines
  rw [List.countP_append, List.countP_append, List.countP_append, List.countP_append]
  constructor
  · have hA : (["\n  $" ++ p.1 ++ " - " ++ toString (lookupNat stats.top_tickers p.1) ++
        " mentions | " ++ asciiUpper p.2.sentiment ++ " | Conviction: " ++
        asciiUpper p.2.conviction] : List String).countP
          (fun s => kpMark.data.isPrefixOf s.data) = 0 := by
      simp only [List.countP_cons, List.countP_nil, String.data_append,
        List.append_assoc]
      rw [show ∀ r, kpMark.data.isPrefixOf ("\n  $".data ++ r) = false from fun _ => rfl]
      rfl
    have hB : (if p.2.key_points.isEmpty then []
        else (p.2.key_points.take 2).map (fun q => kpMark ++ q)).countP
          (fun s => kpMark.data.isPrefixOf s.data)
        = min 2 p.2.key_points.length := by
      rcases hk : p.2.key_points with - | ⟨k0, ks⟩
      · rfl
      · rw [if_neg (by simp),
          countP_map_take_true (fun q => kpMark ++ q)
            (fun s => kpMark.data.isPrefixOf s.data) (fun q => kpMark_prefix q)]
    have hC : (if p.2.risks.isEmpty then []
        else (p.2.risks.take 2).map (fun r => riskMark ++ r)).countP
          (fun s => kpMark.data.isPrefixOf s.data) = 0 := by
      split
      · rfl
      · exact countP_map_take_false (fun r => riskMark ++ r)
          (fun s => kpMark.data.isPrefixOf s.data)
          (fun r => kpMark_not_prefix_risk r) 2 _
    rw [hA, hB, hC]
    omega
  · have hA : (["\n  $" ++ p.1 ++ " - " ++ toString (lookupNat stats.top_tickers p.1) ++
        " mentions | " ++ asciiUpper p.2.sentiment ++ " | Conviction: " ++
        asciiUpper p.2.conviction] : List String).countP
          (fun s => riskMark.data.isPrefixOf s.data) = 0 := by
      simp only [List.countP_cons, List.countP_nil, String.data_append,
        List.append_assoc]
      rw [show ∀ r, riskMark.data.isPrefixOf ("\n  $".data ++ r) = false from fun _ => rfl]
      rfl
    have hB : (if p.2.key_points.isEmpty then []
        else (p.2.key_points.take 2).map (fun q => kpMark ++ q)).countP
          (fun s => riskMark.data.isPrefixOf s.data) = 0 := by
      split
      · rfl
      · exact countP_map_take_false (fun q => kpMark ++ q)
          (fun s => riskMark.data.isPrefixOf s.data)
          (fun q => riskMark_not_prefix_kp q) 2 _
    have hC : (if p.2.risks.isEmpty then []
        else (p.2.risks.take 2).map (fun r => riskMark ++ r)).countP
          (fun s => riskMark.data.isPrefixOf s.data)
        = min 2 p.2.risks.length := by
      rcases hr : p.2.risks with - | ⟨r0, rs⟩
      · rfl
      · rw [if_neg (by simp),
          countP_map_take_true (fun r => riskMark ++ r)
            (fun s => riskMark.data.isPrefixOf s.data) (fun r => riskMark_prefix r)]
    rw [hA, hB, hC]
    omega

/-- The ticker section of the section document renders one chunk per listed
ticker, truncated to 5. -/
theorem tickerSection_heading3_count (stats : Analysis) (ai : AIResult) :
    ((ai.ticker_analysis.take 5).flatMap (tickerDetailBlocks stats)).countP
        isHeading3Block
      = min 5 ai.ticker_analysis.length := by
  have hflat : ∀ (l : List (String × TickerView)),
      ((l.flatMap (tickerDetailBlocks stats)).countP isHeading3Block) = l.length := by
    intro l
    induction l with
    | nil => rfl
    | cons q rest ih =>
      rw [List.flatMap_cons, List.countP_append,
        tickerDetailBlocks_heading3_count, ih, List.length_cons]
      omega
  rw [hflat, List.length_take]

/-! ## Lemmas: the cleanup pipeline -/

/-- Fence removal only drops characters. -/
theorem mem_removeTriple {c : Char} : ∀ {l : List Char}, c ∈ removeTriple l → c ∈ l := by
  intro l
  induction l using removeTriple.induct with
  | case1 rest ih =>
    intro h
    simp only [removeTriple] at h
    simp [ih h]
  | case2 x rest hne ih =>
    intro h
    rw [removeTriple] at h
    · rcases List.mem_cons.mp h with rfl | h
      · exact List.mem_cons_self _ _
      · exact List.mem_cons_of_mem _ (ih h)
    · exact hne
  | case3 => intro h; simp [removeTriple] at h

/-- Whitespace collapse emits only `' '` and original characters. -/
theorem mem_collapseGo {c : Char} : ∀ (b : Bool) (l : List Char),
    c ∈ collapseGo b l → c = ' ' ∨ c ∈ l := by
  intro b l
  induction l generalizing b with
  | nil => intro h; simp [collapseGo] at h
  | cons x xs ih =>
    intro h
    rw [collapseGo] at h
    split at h
    · split at h
      · rcases ih _ h with h' | h'
        · exact Or.inl h'
        · exact Or.inr (List.mem_cons_of_mem _ h')
      · rcases List.mem_cons.mp h with rfl | h
        · exact Or.inl rfl
        · rcases ih _ h with h' | h'
          · exact Or.inl h'
          · exact Or.inr (List.mem_cons_of_mem _ h')
    · rcases List.mem_cons.mp h with rfl | h
      · exact Or.inr (List.mem_cons_self _ _)
      · rcases ih _ h with h' | h'
        · exact Or.inl h'
        · exact Or.inr (List.mem_cons_of_mem _ h')

/-- Every whitespace character surviving the collapse is the plain space. -/
theorem space_collapseGo {c : Char} : ∀ (b : Bool) (l : List Char),
    c ∈ collapseGo b l → isPySpace c = true → c = ' ' := by
  intro b l
  induction l generalizing b with
  | nil => intro h; simp [collapseGo] at h
  | cons x xs ih =>
    intro h hsp
    rw [collapseGo] at h
    split at h
    · split at h
      · exact ih _ h hsp
      · rcases List.mem_cons.mp h with rfl | h
        · rfl
        · exact ih _ h hsp
    · rcases List.mem_cons.mp h with rfl | h
      · rename_i hx; exact absurd hsp (by simp [hx])
      · exact ih _ h hsp

/-- Inside a run the collapser next emits a non-space character. -/
theorem collapseGo_true_head : ∀ (l : List Char) {c : Char} {r : List Char},
    collapseGo true l = c :: r → isPySpace c = false := by
  intro l
  induction l with
  | nil => intro c r h; simp [collapseGo] at h
  | cons x xs ih =>
    intro c r h
    rw [collapseGo] at h
    split at h
    · exact ih h
    · rename_i hx
      rcases List.cons.injEq .. ▸ h with ⟨rfl, -⟩
      exact by simpa using hx

/-- `noRun` is hereditary. -/
theorem noRun_tail {c : Char} {l : List Char} (h : noRun (c :: l) = true) :
    noRun l = true := by
  match l with
  | [] => rfl
  | c' :: r =>
    rw [noRun, Bool.and_eq_true] at h
    exact h.2

/-- The collapsed string has no two adjacent whitespace characters. -/
theorem noRun_collapseGo : ∀ (b : Bool) (l : List Char),
    noRun (collapseGo b l) = true := by
  intro b l
  induction l generalizing b with
  | nil => rfl
  | cons x xs ih =>
    rw [collapseGo]
    split
    · split
      · exact ih _
      · rcases h : collapseGo true xs with - | ⟨c, r⟩
        · rfl
        · rw [noRun, Bool.and_eq_true]
          refine ⟨?_, h ▸ ih true⟩
          simp [collapseGo_true_head xs h]
    · rcases h : collapseGo false xs with - | ⟨c, r⟩
      · rfl
      · rw [noRun, Bool.and_eq_true]
        constructor
        · rename_i hx
          simp [hx]
        · exact h ▸ ih false

/-- Dropping a prefix preserves `noRun`. -/
theorem noRun_dropWhile (p : Char → Bool) : ∀ (l : List Char),
    noRun l = true → noRun (l.dropWhile p) = true := by
  intro l
  induction l with
  | nil => intro h; exact h
  | cons x xs ih =>
    intro h
    rw [List.dropWhile_cons]
    split
    · exact ih (noRun_tail h)
    · exact h

/-- `noRun` restricts to the left part of a concatenation. -/
theorem noRun_append_left : ∀ (a b : List Char),
    noRun (a ++ b) = true → noRun a = true := by
  intro a
  induction a with
  | nil => intro b h; rfl
  | cons x a ih =>
    intro b h
    match a with
    | [] => rfl
    | y :: r =>
      rw [List.cons_append, List.cons_append, noRun, Bool.and_eq_true] at h
      rw [noRun, Bool.and_eq_true]
      exact ⟨h.1, ih b (by simpa using h.2)⟩

/-- The strip step: the stripped string is a prefix of the left-stripped
string. -/
theorem pyStrip_decomp (l : List Char) :
    ∃ t, l.dropWhile isPySpace = pyStrip l ++ t := by
  refine ⟨((l.dropWhile isPySpace).reverse.takeWhile isPySpace).reverse, ?_⟩
  unfold pyStrip
  conv_lhs => rw [← List.reverse_reverse (l.dropWhile isPySpace),
    ← List.takeWhile_append_dropWhile (p := isPySpace)
      (l := (l.dropWhile isPySpace).reverse)]
  rw [List.reverse_append]

/-- Stripping only drops characters. -/
theorem mem_pyStrip {c : Char} {l : List Char} (h : c ∈ pyStrip l) : c ∈ l := by
  obtain ⟨t, ht⟩ := pyStrip_decomp l
  have h1 : c ∈ l.dropWhile isPySpace := ht ▸ List.mem_append_left t h
  exact (List.dropWhile_sublist _).subset h1

/-- The strip result keeps `noRun`. -/
theorem noRun_pyStrip {l : List Char} (h : noRun l = true) :
    noRun (pyStrip l) = true := by
  obtain ⟨t, ht⟩ := pyStrip_decomp l
  exact noRun_append_left _ t (ht ▸ noRun_dropWhile isPySpace l h)

/-- A dropped-while head falsifies the predicate. -/
theorem dropWhile_head_false (p : Char → Bool) : ∀ (l : List Char) {c : Char}
    {r : List Char}, l.dropWhile p = c :: r → p c = false := by
  intro l
  induction l with
  | nil => intro c r h; simp at h
  | cons x xs ih =>
    intro c r h
    rw [List.dropWhile_cons] at h
    split at h
    · exact ih h
    · rename_i hx
      rcases List.cons.injEq .. ▸ h with ⟨rfl, -⟩
      simpa using hx

/-- Neither end of the stripped string is whitespace. -/
theorem trimmedEnds_pyStrip (l : List Char) : trimmedEnds (pyStrip l) = true := by
  unfold trimmedEnds
  rw [Bool.and_eq_true]
  constructor
  · rcases h : pyStrip l with - | ⟨c, r⟩
    · rfl
    · obtain ⟨t, ht⟩ := pyStrip_decomp l
      rw [h] at ht
      simp only [List.cons_append] at ht
      simp [dropWhile_head_false isPySpace l ht]
  · unfold pyStrip
    rw [List.getLast?_reverse]
    rcases h : ((l.dropWhile isPySpace).reverse).dropWhile isPySpace with - | ⟨c, r⟩
    · rfl
    · simp [h, dropWhile_head_false isPySpace _ h]

/-! ## Lemmas: the global ticker counter of `analyze_messages` -/

/-- Projecting the ticker counter out of the aggregation fold. -/
theorem ticker_counts_foldl : ∀ (msgs : List Msg) (st : AggState),
    (msgs.foldl stepMsg st).ticker_counts
      = msgs.foldl (fun acc m => (extract_tickers m.content).foldl bump acc)
          st.ticker_counts := by
  intro msgs
  induction msgs with
  | nil => intro st; rfl
  | cons m rest ih =>
    intro st
    rw [List.foldl_cons, List.foldl_cons, ih]
    rfl

/-- Bumping message by message is bumping over the concatenated occurrence
list. -/
theorem foldl_bump_flatten : ∀ (msgs : List Msg) (acc : List (String × Nat)),
    msgs.foldl (fun acc m => (extract_tickers m.content).foldl bump acc) acc
      = (msgs.flatMap (fun m => extract_tickers m.content)).foldl bump acc := by
  intro msgs
  induction msgs with
  | nil => intro acc; rfl
  | cons m rest ih =>
    intro acc
    rw [List.foldl_cons, ih, List.flatMap_cons, List.foldl_append]

/-- One bump adds exactly one occurrence to the counter total. -/
theorem sumCounts_bump (l : List (String × Nat)) (k : String) :
    sumCounts (bump l k) = sumCounts l + 1 := by
  induction l with
  | nil => rfl
  | cons q rest ih =>
    obtain ⟨k', n⟩ := q
    by_cases hk : k' = k <;>
      simp [bump, hk, sumCounts, List.map_cons, List.sum_cons] <;>
      simp [sumCounts] at ih <;> omega

/-- Bumping adds the key when absent and otherwise keeps the key set. -/
theorem mem_keys_bump (l : List (String × Nat)) (k a : String) :
    a ∈ (bump l k).map Prod.fst ↔ a ∈ l.map Prod.fst ∨ a = k := by
  induction l with
  | nil => simp [bump]
  | cons q rest ih =>
    obtain ⟨k', n⟩ := q
    by_cases hk : k' = k <;> simp [bump, hk, ih] <;> tauto

/-- Bumping keeps keys duplicate-free. -/
theorem nodup_keys_bump (l : List (String × Nat)) (k : String)
    (h : (l.map Prod.fst).Nodup) : ((bump l k).map Prod.fst).Nodup := by
  induction l with
  | nil => simp [bump]
  | cons q rest ih =>
    obtain ⟨k', n⟩ := q
    rw [List.map_cons, List.nodup_cons] at h
    by_cases hk : k' = k
    · simp only [bump, if_pos hk, List.map_cons, List.nodup_cons]
      exact ⟨h.1, h.2⟩
    · simp only [bump, if_neg hk, List.map_cons, List.nodup_cons]
      refine ⟨?_, ih h.2⟩
      rw [mem_keys_bump]
      rintro (hmem | rfl)
      · exact h.1 hmem
      · exact hk rfl

/-- Bumping keeps every count at least 1. -/
theorem counts_pos_bump (l : List (String × Nat)) (k : String)
    (h : ∀ q ∈ l, 1 ≤ q.2) : ∀ q ∈ bump l k, 1 ≤ q.2 := by
  induction l with
  | nil =>
    intro q hq
    simp [bump] at hq
    simp [hq]
  | cons p rest ih =>
    obtain ⟨k', n⟩ := p
    intro q hq
    by_cases hk : k' = k
    · simp only [bump, if_pos hk] at hq
      rcases List.mem_cons.mp hq with rfl | hq
      · simp
      · exact h q (List.mem_cons_of_mem _ hq)
    · simp only [bump, if_neg hk] at hq
      rcases List.mem_cons.mp hq with rfl | hq
      · exact h _ (List.mem_cons_self _ _)
      · exact ih (fun r hr => h r (List.mem_cons_of_mem _ hr)) q hq

/-- The counter invariants, folded over a whole occurrence list: the total
grows by the number of occurrences, keys stay duplicate-free, the key set is
the set of seen tickers, and every count is at least 1. -/
theorem foldl_bump_invariants : ∀ (L : List String) (l : List (String × Nat)),
    sumCounts (L.foldl bump l) = sumCounts l + L.length
    ∧ ((l.map Prod.fst).Nodup → ((L.foldl bump l).map Prod.fst).Nodup)
    ∧ (∀ a, a ∈ (L.foldl bump l).map Prod.fst ↔ a ∈ l.map Prod.fst ∨ a ∈ L)
    ∧ ((∀ q ∈ l, 1 ≤ q.2) → ∀ q ∈ L.foldl bump l, 1 ≤ q.2) := by
  intro L
  induction L with
  | nil => intro l; simp
  | cons k L ih =>
    intro l
    rw [List.foldl_cons]
    refine ⟨?_, ?_, ?_, ?_⟩
    · rw [(ih (bump l k)).1, sumCounts_bump, List.length_cons]
      omega
    · intro h
      exact (ih _).2.1 (nodup_keys_bump l k h)
    · intro a
      rw [(ih _).2.2.1 a, mem_keys_bump, List.mem_cons]
      tauto
    · intro h
      exact (ih _).2.2.2 (counts_pos_bump l k h)

/-- The counter has one entry per distinct seen ticker. -/
theorem tickerCounts_length_eq_dedup (L : List String) :
    (L.foldl bump []).length = L.dedup.length := by
  have hnd : ((L.foldl bump []).map Prod.fst).Nodup :=
    (foldl_bump_invariants L []).2.1 (by simp)
  have hperm : List.Perm ((L.foldl bump []).map Prod.fst) L.dedup := by
    rw [List.perm_ext_iff_of_nodup hnd L.nodup_dedup]
    intro a
    rw [(foldl_bump_invariants L []).2.2.1 a, List.mem_dedup]
    simp
  have hlen := hperm.length_eq
  simpa [List.length_map] using hlen

/-- Stable descending insertion permutes. -/
theorem insertDesc_perm (p : String × Nat) : ∀ (l : List (String × Nat)),
    List.Perm (insertDesc p l) (p :: l) := by
  intro l
  induction l with
  | nil => exact List.Perm.refl _
  | cons q rest ih =>
    rw [insertDesc]
    split
    · exact List.Perm.refl _
    · exact (ih.cons q).trans (List.Perm.swap p q rest)

/-- The stable descending sort permutes its input. -/
theorem sortByCountDesc_perm (l : List (String × Nat)) :
    List.Perm (sortByCountDesc l) l := by
  induction l with
  | nil => exact List.Perm.refl _
  | cons q rest ih =>
    exact (insertDesc_perm q (sortByCountDesc rest)).trans (ih.cons q)

/-- Sorting does not change the counter total. -/
theorem sumCounts_sort (l : List (String × Nat)) :
    sumCounts (sortByCountDesc l) = sumCounts l :=
  ((sortByCountDesc_perm l).map Prod.snd).sum_eq

/-- A counter all of whose entries count at least one occurrence totals at
least its number of entries. -/
theorem length_le_sumCounts (l : List (String × Nat)) (h : ∀ q ∈ l, 1 ≤ q.2) :
    l.length ≤ sumCounts l := by
  induction l with
  | nil => simp [sumCounts]
  | cons q rest ih =>
    have h1 := h q (List.mem_cons_self _ _)
    have h2 := ih (fun r hr => h r (List.mem_cons_of_mem _ hr))
    simp only [sumCounts, List.map_cons, List.sum_cons, List.length_cons] at h2 ⊢
    omega

/-! ## Claim theorems -/

/-- C1: for every list of message records, running `analyze_messages` twice on
the same list produces identical aggregation results — equal as values and
byte-identical when serialized.  The aggregation is a pure function of the
record list (insertion-ordered counters, stable sorting), so two runs on one
input cannot diverge. -/
theorem claim1_analyze_messages_deterministic (m1 m2 : List Msg) (h : m1 = m2) :
    serializeAnalysis (analyze_messages m1) = serializeAnalysis (analyze_messages m2)
    ∧ analyze_messages m1 = analyze_messages m2 := by
  subst h
  exact ⟨rfl, rfl⟩

/-- Witness for C1 at a concrete one-record input. -/
theorem claim1_witness :
    ([{ content := "$GME up", author := "alice", ts := some "t1" }] : List Msg)
      = [{ content := "$GME up", author := "alice", ts := some "t1" }]
    ∧ (serializeAnalysis (analyze_messages [{ content := "$GME up", author := "alice", ts := some "t1" }])
         = serializeAnalysis (analyze_messages [{ content := "$GME up", author := "alice", ts := some "t1" }])
       ∧ analyze_messages [{ content := "$GME up", author := "alice", ts := some "t1" }]
         = analyze_messages [{ content := "$GME up", author := "alice", ts := some "t1" }]) :=
  ⟨rfl, claim1_analyze_messages_deterministic _ _ rfl⟩

/-- C2: whenever the oracle path of `analyze_with_gemini` fails (initialization,
generation or JSON parsing raises `e`), the adapter returns — never raises —
the fallback result: empty `ticker_analysis`, a present (`some`) `error`
marker carrying the exception text, and a watchlist made of the first 5 keys
of the aggregation's `top_tickers`. -/
theorem claim2_gemini_failure_fallback (e : String) (basic_stats : Analysis) :
    (analyze_with_gemini (Except.error e) basic_stats).ticker_analysis = []
    ∧ (analyze_with_gemini (Except.error e) basic_stats).error = some e
    ∧ ((analyze_with_gemini (Except.error e) basic_stats).error).isSome = true
    ∧ (analyze_with_gemini (Except.error e) basic_stats).watchlist
        = (basic_stats.top_tickers.map Prod.fst).take 5 :=
  ⟨rfl, rfl, rfl, rfl⟩

/-- C4: `extract_tickers` returns, in order of occurrence and one entry per
occurrence, exactly the `$`-prefixed runs of 1–5 uppercase Latin letters that
end at a word boundary: every returned symbol has 1–5 uppercase letters, the
spec's example text yields exactly `["AAPL"]` (lowercase and over-long tokens
excluded), and duplicates are kept in occurrence order. -/
theorem claim4_extract_tickers (s : String) :
    ((extract_tickers s).all
        (fun t => decide (1 ≤ t.length) && decide (t.length ≤ 5) &&
          t.data.all isUpperAZ)) = true
    ∧ extract_tickers "Long $AAPL and $msft, watch $TOOLONGTICKER" = ["AAPL"]
    ∧ extract_tickers "$A $B $A" = ["A", "B", "A"] := by
  refine ⟨?_, by decide, by decide⟩
  rw [List.all_eq_true]
  intro t ht
  simp only [extract_tickers, List.mem_map] at ht
  obtain ⟨cap, hcap, rfl⟩ := ht
  have h3 := mem_findTickers _ _ _ hcap
  simp only [Bool.and_eq_true, decide_eq_true_iff]
  exact ⟨⟨h3.1, h3.2.1⟩, h3.2.2⟩

/-- C6: `analyze_messages` on the empty record list returns the all-zero/empty
result with `date_range` absent. -/
theorem claim6_empty_input :
    analyze_messages []
      = { total_messages := 0, channels := [], top_tickers := [],
          unique_authors := 0, date_range := none } :=
  rfl

/-- C7: every record persisted by `append_message` lands in the day partition
of its timestamp's UTC calendar date: the record's `ts` instant lies inside
the calendar day `d` named by the partition directory. -/
theorem claim7_partition_day (m : DiscordMsg) (d : Nat) (f : String)
    (r : StoredRecord) (h : append_message m = some (d, f, r)) :
    d * 86400 ≤ r.ts ∧ r.ts < (d + 1) * 86400 ∧ day_dir r.ts = d := by
  by_cases hc : pyClean m.content = ""
  · simp [append_message, hc] at h
  · simp only [append_message, if_neg hc, Option.some.injEq, Prod.mk.injEq] at h
    obtain ⟨rfl, -, rfl⟩ := h
    have h1 := Nat.div_add_mod m.created_at 86400
    have h2 := Nat.mod_lt m.created_at (show 0 < 86400 by omega)
    refine ⟨?_, ?_, rfl⟩
    · show day_dir m.created_at * 86400 ≤ m.created_at
      unfold day_dir
      omega
    · show m.created_at < (day_dir m.created_at + 1) * 86400
      unfold day_dir
      omega

/-- Witness for C7 at a concrete persisted message. -/
theorem claim7_witness :
    append_message ⟨1000000, 42, some "general", 7, "alice", "hello $GME", []⟩
      = some (11, "42.jsonl",
          ⟨1000000, "42", some "general", "7", "alice", "hello $GME", []⟩)
    ∧ (11 * 86400 ≤ (1000000 : Nat) ∧ (1000000 : Nat) < (11 + 1) * 86400
       ∧ day_dir 1000000 = 11) :=
  ⟨by decide,
   claim7_partition_day ⟨1000000, 42, some "general", 7, "alice", "hello $GME", []⟩
     11 "42.jsonl" ⟨1000000, "42", some "general", "7", "alice", "hello $GME", []⟩
     (by decide)⟩

set_option maxRecDepth 10000 in
/-- C9 counterexample: the markdown rendering is not a function of
(aggregation, AI result, date) alone — its footer embeds
`datetime.utcnow().isoformat()`, so two calls with identical inputs at two
different instants produce different strings.  The claim as stated is false
for this renderer. -/
theorem claim9_counterexample :
    generate_markdown_summary (analyze_messages []) "2025-01-01" "2025-01-01T00:00:00"
      ≠ generate_markdown_summary (analyze_messages []) "2025-01-01" "2025-01-01T00:00:01" := by
  decide

/-- C9 amended: the plain-text rendering, the enhanced plain-text rendering
and the section-document rendering are pure deterministic functions of
(aggregation, AI result, date) alone; the markdown rendering is deterministic
only once the generation instant `now` is fixed alongside those inputs. -/
theorem claim9_renderers_deterministic (a a' : Analysis) (ai ai' : AIResult)
    (d d' now : String) (h1 : a = a') (h2 : ai = ai') (h3 : d = d') :
    generate_summary_text a d = generate_summary_text a' d'
    ∧ generate_enhanced_summary_text a ai d = generate_enhanced_summary_text a' ai' d'
    ∧ build_content_blocks a ai d = build_content_blocks a' ai' d'
    ∧ generate_markdown_summary a d now = generate_markdown_summary a' d' now := by
  subst h1; subst h2; subst h3
  exact ⟨rfl, rfl, rfl, rfl⟩

/-- Witness for C9 (amended) at concrete inputs. -/
theorem claim9_witness :
    (analyze_messages [] = analyze_messages []
     ∧ ({ } : AIResult) = { }
     ∧ "2025-01-01" = "2025-01-01")
    ∧ (generate_summary_text (analyze_messages []) "2025-01-01"
         = generate_summary_text (analyze_messages []) "2025-01-01"
       ∧ generate_enhanced_summary_text (analyze_messages []) { } "2025-01-01"
         = generate_enhanced_summary_text (analyze_messages []) { } "2025-01-01"
       ∧ build_content_blocks (analyze_messages []) { } "2025-01-01"
         = build_content_blocks (analyze_messages []) { } "2025-01-01"
       ∧ generate_markdown_summary (analyze_messages []) "2025-01-01" "T0"
         = generate_markdown_summary (analyze_messages []) "2025-01-01" "T0") :=
  ⟨⟨rfl, rfl, rfl⟩,
   claim9_renderers_deterministic _ _ _ _ _ _ _ rfl rfl rfl⟩

/-- C10: `load_day_messages` never fails on a malformed stored line: the
per-line reading is total, a line the JSON parser rejects is skipped, and
every other non-empty line of every partition blob is parsed and included in
order.  The fold of the source equals the declarative join-filter reading,
and on a concrete partition with a malformed middle line the two good lines
survive while the bad one is dropped. -/
theorem claim10_load_day_messages :
    (∀ (α : Type) (parse : String → Option α) (blobs : List String),
       load_day_messages parse blobs = loadJoined parse blobs)
    ∧ load_day_messages
        (fun s => if "ok".data.isPrefixOf s.data then some s else none)
        ["ok1\nbad line\nok2  ", "  \nok3"]
      = ["ok1", "ok2", "ok3"] :=
  ⟨fun _ parse blobs => load_day_messages_eq_loadJoined parse blobs, by decide⟩

/-- C8 counterexample: the truncation limits of the two renderings differ.
For a ticker whose oracle analysis carries three key points (and no risks),
the section-document chunk (`_build_content_blocks`) emits all 3 of them as
bullets — its loop truncates `key_points[:3]` — while the plain-text chunk
(`generate_enhanced_summary_text`, `key_points[:2]`) emits only 2 key-point
lines.  So the claim that both renderings cap each ticker's detail at 2 key
points is false at this input. -/
theorem claim8_counterexample :
    (tickerDetailBlocks (analyze_messages [])
        ("TST", { key_points := ["p1", "p2", "p3"] })).countP isBulletBlock = 3
    ∧ countKpLines (tickerDetailLines (analyze_messages [])
        ("TST", { key_points := ["p1", "p2", "p3"] })) = 2
    ∧ ¬((tickerDetailBlocks (analyze_messages [])
        ("TST", { key_points := ["p1", "p2", "p3"] })).countP isBulletBlock ≤ 2) := by
  refine ⟨by decide, by decide, by decide⟩

/-- C8 amended: both renderings cap the ticker detail section at 5 tickers,
but the per-ticker truncation limits differ: the plain-text rendering emits
at most 2 key-point lines and 2 risk lines per ticker (`key_points[:2]`,
`risks[:2]`), while the section-document rendering emits at most 3 key-point
bullets and 3 risk bullets per ticker (`key_points[:3]`, `risks[:3]`). -/
theorem claim8_truncation_amended (stats : Analysis) (p : String × TickerView)
    (ai : AIResult) :
    (tickerDetailBlocks stats p).countP isBulletBlock
      = min 3 p.2.key_points.length + min 3 p.2.risks.length
    ∧ countKpLines (tickerDetailLines stats p) = min 2 p.2.key_points.length
    ∧ countRiskLines (tickerDetailLines stats p) = min 2 p.2.risks.length
    ∧ ((ai.ticker_analysis.take 5).flatMap (tickerDetailBlocks stats)).countP
        isHeading3Block
      = min 5 ai.ticker_analysis.length :=
  ⟨tickerDetailBlocks_bullet_count stats p,
   (tickerDetailLines_counts stats p).1,
   (tickerDetailLines_counts stats p).2,
   tickerSection_heading3_count stats ai⟩

/-- C3: for every raw message text, the cleaned content contains no character
of the removed emoji range and no backtick, every whitespace character left is
the single space with no two adjacent, and both ends are trimmed; and
`append_message` persists a record exactly when the cleaned content is
non-empty, so no empty-content record is ever written. -/
theorem claim3_clean_and_append (s : List Char) (m : DiscordMsg) :
    ((cleanChars s).all (fun c => !isEmojiChar c && !(c == '`'))) = true
    ∧ ((cleanChars s).all (fun c => !isPySpace c || c == ' ')) = true
    ∧ noRun (cleanChars s) = true
    ∧ trimmedEnds (cleanChars s) = true
    ∧ (append_message m).isNone = (pyClean m.content == "")
    ∧ (Option.all (fun e => !(e.2.2.content == "")) (append_message m)) = true := by
  refine ⟨?_, ?_, ?_, ?_, ?_, ?_⟩
  · rw [List.all_eq_true]
    intro c hc
    have h1 := mem_pyStrip hc
    rcases mem_collapseGo false _ h1 with rfl | h2
    · rfl
    · have h3 := List.mem_filter.mp h2
      have h4 := List.mem_filter.mp (mem_removeTriple h3.1)
      simp only [Bool.and_eq_true]
      constructor
      · simpa using h4.2
      · simpa using h3.2
  · rw [List.all_eq_true]
    intro c hc
    by_cases hsp : isPySpace c = true
    · have h1 := mem_pyStrip hc
      have := space_collapseGo false _ h1 hsp
      simp [this]
    · simp [Bool.not_eq_true] at hsp
      simp [hsp]
  · exact noRun_pyStrip (noRun_collapseGo false _)
  · exact trimmedEnds_pyStrip _
  · by_cases hc : pyClean m.content = "" <;> simp [append_message, hc]
  · by_cases hc : pyClean m.content = "" <;> simp [append_message, hc]

/-- C5: for every non-empty record list, the counts in `top_tickers` sum to
the total number of ticker occurrences across all records' content, and that
sum is at least the number of distinct tickers appearing in the records. -/
theorem claim5_ticker_count_sum (msgs : List Msg) (h : msgs ≠ []) :
    sumCounts (analyze_messages msgs).top_tickers
      = (msgs.flatMap (fun m => extract_tickers m.content)).length
    ∧ (msgs.flatMap (fun m => extract_tickers m.content)).dedup.length
      ≤ sumCounts (analyze_messages msgs).top_tickers := by
  have htop : (analyze_messages msgs).top_tickers
      = sortByCountDesc
          ((msgs.flatMap (fun m => extract_tickers m.content)).foldl bump []) := by
    simp only [analyze_messages, if_neg h]
    rw [ticker_counts_foldl, foldl_bump_flatten]
  constructor
  · rw [htop, sumCounts_sort, (foldl_bump_invariants _ []).1]
    simp [sumCounts]
  · rw [htop]
    have hlen : (msgs.flatMap (fun m => extract_tickers m.content)).dedup.length
        = (sortByCountDesc
            ((msgs.flatMap (fun m => extract_tickers m.content)).foldl bump [])).length := by
      rw [(sortByCountDesc_perm _).length_eq, tickerCounts_length_eq_dedup]
    rw [hlen]
    refine length_le_sumCounts _ (fun q hq => ?_)
    exact (foldl_bump_invariants _ []).2.2.2 (by simp) q
      ((sortByCountDesc_perm _).subset hq)

/-- Witness for C5 at a concrete two-record input. -/
theorem claim5_witness :
    ([{ content := "$GME $AMC up", author := "a" },
      { content := "buy $GME", author := "b" }] : List Msg) ≠ []
    ∧ (sumCounts (analyze_messages
         [{ content := "$GME $AMC up", author := "a" },
          { content := "buy $GME", author := "b" }]).top_tickers
       = (([{ content := "$GME $AMC up", author := "a" },
            { content := "buy $GME", author := "b" }] : List Msg).flatMap
            (fun m => extract_tickers m.content)).length
       ∧ (([{ content := "$GME $AMC up", author := "a" },
            { content := "buy $GME", author := "b" }] : List Msg).flatMap
            (fun m => extract_tickers m.content)).dedup.length
         ≤ sumCounts (analyze_messages
             [{ content := "$GME $AMC up", author := "a" },
              { content := "buy $GME", author := "b" }]).top_tickers) :=
  ⟨by decide,
   claim5_ticker_count_sum
     [{ content := "$GME $AMC up", author := "a" },
      { content := "buy $GME", author := "b" }] (by decide)⟩

end Tradesbot
